import Mathlib

/-
Formal model of the keyboard-mcp approval/execution core:
  - src/src/encryption.ts  (symmetric payload confidentiality helper)
  - src/src/approver.ts    (WebSocketManager: connection lifecycle, correlation)
  - src/src/index.ts       (token lifecycle: plan / evaluate / execute)
  - src/src/codespaces.ts  (executeCodeOnCodespace dispatch + acknowledgment)

JavaScript strings are modelled as lists of characters; JavaScript objects
holding dynamic keys are modelled as association lists; the external
Node crypto cipher and the remote HTTP endpoints are abstracted as
parameters, with the repository's own wrapper logic translated literally.
-/

/-- JavaScript strings are modelled as lists of characters. -/
abbrev Str := List Char

/-- Conversion from Lean string literals to the model's string type. -/
def toStr (s : String) : Str := s.toList

/-- JavaScript truthiness of a string: nonempty. -/
def truthyStr (s : Str) : Bool := !s.isEmpty

/-- Embedding of JavaScript `s.split(c)` for a one-character separator. -/
def splitOnChar (c : Char) : Str → List Str
  | [] => [[]]
  | x :: xs =>
    let r := splitOnChar c xs
    if x = c then [] :: r
    else
      match r with
      | [] => [[x]]
      | y :: ys => (x :: y) :: ys

theorem splitOnChar_ne_nil (c : Char) (s : Str) : splitOnChar c s ≠ [] := by
  cases s with
  | nil => simp [splitOnChar]
  | cons x xs =>
    simp only [splitOnChar]
    split
    · simp
    · split <;> simp

theorem splitOnChar_no_sep (c : Char) (s : Str) (h : c ∉ s) :
    splitOnChar c s = [s] := by
  induction s with
  | nil => rfl
  | cons x xs ih =>
    simp only [List.mem_cons, not_or] at h
    have hx : ¬ x = c := fun he => h.1 he.symm
    simp only [splitOnChar]
    rw [if_neg hx, ih h.2]

theorem splitOnChar_append (c : Char) (a b : Str) (ha : c ∉ a) (hb : c ∉ b) :
    splitOnChar c (a ++ c :: b) = [a, b] := by
  induction a with
  | nil => simp [splitOnChar, splitOnChar_no_sep c b hb]
  | cons x xs ih =>
    simp only [List.mem_cons, not_or] at ha
    have hx : ¬ x = c := fun he => ha.1 he.symm
    simp only [List.cons_append, splitOnChar]
    rw [if_neg hx, List.append_eq, ih ha.2]

namespace Crypto

/-- Hex digit for a value below 16, as produced by the hex rendering of a byte buffer. -/
def hexDigit (n : Nat) : Char :=
  if n < 10 then Char.ofNat (48 + n) else Char.ofNat (87 + n)

/-- Hex rendering of a byte sequence (Buffer toString hex): two
lowercase hex characters per byte. -/
def bytesToHex : List Nat → Str
  | [] => []
  | b :: bs => hexDigit (b / 16 % 16) :: hexDigit (b % 16) :: bytesToHex bs

/-- Value of one hex character, if it is one. -/
def hexVal (ch : Char) : Option Nat :=
  if 48 ≤ ch.toNat ∧ ch.toNat ≤ 57 then some (ch.toNat - 48)
  else if 97 ≤ ch.toNat ∧ ch.toNat ≤ 102 then some (ch.toNat - 87)
  else if 65 ≤ ch.toNat ∧ ch.toNat ≤ 70 then some (ch.toNat - 55)
  else none

/-- Embedding of Buffer.from with hex encoding: parse hex pairs, stopping at the
first invalid pair or odd trailing character. -/
def hexToBytes : Str → List Nat
  | c1 :: c2 :: rest =>
    match hexVal c1, hexVal c2 with
    | some h, some l => (16 * h + l) :: hexToBytes rest
    | _, _ => []
  | _ => []

theorem hexVal_hexDigit (n : Nat) (h : n < 16) : hexVal (hexDigit n) = some n := by
  interval_cases n <;> decide

theorem hexDigit_ne_colon (n : Nat) (h : n < 16) : hexDigit n ≠ ':' := by
  interval_cases n <;> decide

theorem colon_not_mem_bytesToHex (bs : List Nat) : ':' ∉ bytesToHex bs := by
  induction bs with
  | nil => simp [bytesToHex]
  | cons b bs ih =>
    simp only [bytesToHex, List.mem_cons, not_or]
    refine ⟨?_, ?_, ih⟩
    · intro hcontra
      exact hexDigit_ne_colon _ (Nat.mod_lt _ (by omega)) hcontra.symm
    · intro hcontra
      exact hexDigit_ne_colon _ (Nat.mod_lt _ (by omega)) hcontra.symm

theorem hexToBytes_bytesToHex (bs : List Nat) (h : ∀ b ∈ bs, b < 256) :
    hexToBytes (bytesToHex bs) = bs := by
  induction bs with
  | nil => rfl
  | cons b bs ih =>
    have hb : b < 256 := h b (List.mem_cons_self _ _)
    have hhi : b / 16 % 16 < 16 := Nat.mod_lt _ (by omega)
    have hlo : b % 16 < 16 := Nat.mod_lt _ (by omega)
    simp only [bytesToHex, hexToBytes, hexVal_hexDigit _ hhi,
      hexVal_hexDigit _ hlo]
    have hdiv : b / 16 % 16 = b / 16 := Nat.mod_eq_of_lt (by omega)
    rw [hdiv]
    have hbval : 16 * (b / 16) + b % 16 = b := by omega
    rw [hbval, ih (fun x hx => h x (List.mem_cons_of_mem _ hx))]

theorem bytesToHex_ne_nil (bs : List Nat) (h : bs ≠ []) : bytesToHex bs ≠ [] := by
  cases bs with
  | nil => exact absurd rfl h
  | cons b bs => simp [bytesToHex]

/-- Failure stages of the confidentiality helper.  In the source every
failure surfaces as a generic thrown error (Failed to encrypt data /
Failed to decrypt data); the constructor records which statement of the
source raised it:
  - keyLength: encrypt's explicit key-length guard (encryption.ts:11-13),
    the only key-length check written in the repository;
  - invalidFormat: decrypt's delimiter / emptiness guard (encryption.ts:31-33);
  - decipherInit: createDecipheriv rejecting the key (Node crypto throws
    on a key that is not 32 bytes for aes-256-cbc) — reached only after
    the format guard, since decrypt has no key pre-check;
  - decipherFailed: the cipher rejecting the ciphertext (bad padding etc.). -/
inductive CryptoError
  | keyLength
  | invalidFormat
  | decipherInit
  | decipherFailed
deriving DecidableEq, Repr

/-- External AES-256-CBC cipher (Node createCipheriv/createDecipheriv),
abstracted: enc maps key, IV and utf8 plaintext to hex ciphertext; dec is
its partial inverse, returning none on malformed ciphertext. -/
structure BlockCipher where
  enc : List Nat → List Nat → Str → Str
  dec : List Nat → List Nat → Str → Option Str

/-- Embedding of encrypt (src/src/encryption.ts:9-25): key-length guard,
then hex(iv) ++ ':' ++ hex ciphertext. -/
def encrypt (C : BlockCipher) (key iv : List Nat) (text : Str) :
    Except CryptoError Str :=
  if key.length ≠ 32 then .error .keyLength
  else .ok (bytesToHex iv ++ ':' :: C.enc key iv text)

/-- Embedding of decrypt (src/src/encryption.ts:27-46): split on the colon,
take the first two parts, fail if either is missing or empty, then hand
the parsed IV and ciphertext to the decipher.  There is no key-length
guard in the source; the decipher construction itself rejects a key that
is not 32 bytes. -/
def decrypt (C : BlockCipher) (key : List Nat) (encryptedText : Str) :
    Except CryptoError Str :=
  match splitOnChar ':' encryptedText with
  | ivHex :: encPart :: _ =>
    if ivHex = [] ∨ encPart = [] then .error .invalidFormat
    else if key.length ≠ 32 then .error .decipherInit
    else
      match C.dec key (hexToBytes ivHex) encPart with
      | some t => .ok t
      | none => .error .decipherFailed
  | _ => .error .invalidFormat

end Crypto

namespace Approver

/-- readyState values of the underlying socket (ws library constants). -/
inductive SocketState
  | CONNECTING
  | OPEN
  | CLOSING
  | CLOSED
deriving DecidableEq, Repr

/-- Value with which a pending correlated request is resolved, as built by
handleMessage (src/src/approver.ts:113-134): an approved reply passes the
parsed message through; a rejected, invalid or unparsable reply resolves
with a stringified error record (which, crucially, is a plain string and
so carries no status field). -/
inductive ResolvedValue
  | approvedMsg (feedback : Option Str)
  | errorString (msg : Str) (feedback : Option Str)
deriving DecidableEq, Repr

/-- Inbound reply as seen by handleMessage: either JSON with an optional
status / feedback field, or unparsable text. -/
inductive InboundReply
  | jsonMsg (status : Option Str) (feedback : Option Str)
  | nonJson (raw : Str)
deriving DecidableEq, Repr

/-- Observable side effects of the WebSocketManager, recorded in program
order. -/
inductive WSAction
  | wsSend (msg : Str)
  | resolvePending (v : ResolvedValue)
  | rejectPending (err : Str)
  | clearSocketRef
  | closeSocket
  | cancelTimer
  | scheduleTimer (attempt : Nat)
deriving DecidableEq, Repr

/-- State of the WebSocketManager (src/src/approver.ts:20-40).  The
pending response holds resolve/reject callbacks in the source; here its
presence is the state and resolution is an emitted WSAction. -/
structure WSManager where
  ws : Option SocketState
  messageQueue : List Str
  reconnectAttempts : Nat
  reconnectTimer : Bool
  pendingResponse : Bool
  autoReconnect : Bool
  maxReconnectAttempts : Nat
deriving DecidableEq, Repr

/-- readyState === WebSocket.OPEN check used throughout the source. -/
def wsIsOpen (s : WSManager) : Bool := s.ws = some SocketState.OPEN

def msgDisconnected : Str := toStr "WebSocket disconnected"

def msgNotConnected : Str := toStr "WebSocket not connected"

def msgAlreadyAwaiting : Str := toStr "Already waiting for a response"

/-- Embedding of scheduleReconnect (src/src/approver.ts:90-102): stop
once the attempt counter has reached the cap, otherwise increment it and
arm the reconnect timer. -/
def scheduleReconnect (s : WSManager) : WSManager × List WSAction :=
  if s.maxReconnectAttempts ≤ s.reconnectAttempts then (s, [])
  else
    ({ s with reconnectAttempts := s.reconnectAttempts + 1,
              reconnectTimer := true },
     [WSAction.scheduleTimer (s.reconnectAttempts + 1)])

/-- Embedding of the while-loop of flushQueue (src/src/approver.ts:104-111):
each shifted message is sent only if it is truthy and the socket is open. -/
def flushLoop (opened : Bool) : List Str → List WSAction
  | [] => []
  | m :: rest =>
    (if m ≠ [] ∧ opened = true then [WSAction.wsSend m] else [])
      ++ flushLoop opened rest

/-- Embedding of flushQueue: drains the queue, sending in FIFO order. -/
def flushQueue (s : WSManager) : WSManager × List WSAction :=
  ({ s with messageQueue := [] }, flushLoop (wsIsOpen s) s.messageQueue)

/-- Embedding of the open-event handler (src/src/approver.ts:46-50): the
socket is now OPEN, the attempt counter resets, the queue is flushed. -/
def onOpen (s : WSManager) : WSManager × List WSAction :=
  flushQueue { s with ws := some SocketState.OPEN, reconnectAttempts := 0 }

/-- Embedding of the close-event handler (src/src/approver.ts:56-69): clear
the socket reference first, then reject a pending response if present,
then schedule a reconnect when autoReconnect is on. -/
def onClose (s : WSManager) : WSManager × List WSAction :=
  let s1 : WSManager := { s with ws := none }
  let step2 : WSManager × List WSAction :=
    if s1.pendingResponse then
      ({ s1 with pendingResponse := false },
       [WSAction.rejectPending msgDisconnected])
    else (s1, [])
  let step3 : WSManager × List WSAction :=
    if step2.1.autoReconnect then scheduleReconnect step2.1 else (step2.1, [])
  (step3.1, WSAction.clearSocketRef :: step2.2 ++ step3.2)

/-- Embedding of the error-event handler (src/src/approver.ts:71-80): clear
the socket reference, then reject a pending response with the transport
error; no reconnect is scheduled here. -/
def onError (s : WSManager) (err : Str) : WSManager × List WSAction :=
  let s1 : WSManager := { s with ws := none }
  if s1.pendingResponse then
    ({ s1 with pendingResponse := false }, [WSAction.clearSocketRef,
      WSAction.rejectPending err])
  else (s1, [WSAction.clearSocketRef])

/-- Embedding of handleMessage's reply interpretation
(src/src/approver.ts:115-131). -/
def handleApprovalReply (r : InboundReply) : ResolvedValue :=
  match r with
  | InboundReply.jsonMsg status feedback =>
    if status = some (toStr "approved") then
      ResolvedValue.approvedMsg feedback
    else if status = some (toStr "rejected") then
      ResolvedValue.errorString (toStr "code execution rejected")
        (some (feedback.getD (toStr "yo you rejected the message")))
    else ResolvedValue.errorString (toStr "Invalid approval response") none
  | InboundReply.nonJson _ =>
    ResolvedValue.errorString (toStr "Failed to parse JSON response") none

/-- Embedding of handleMessage (src/src/approver.ts:113-145): while a
pending response exists the next inbound message resolves it; otherwise
the message goes to the general (logging-only) handlers. -/
def handleMessage (s : WSManager) (r : InboundReply) :
    WSManager × List WSAction :=
  if s.pendingResponse then
    ({ s with pendingResponse := false },
     [WSAction.resolvePending (handleApprovalReply r)])
  else (s, [])

/-- Default title used by send when the given title is falsy. -/
def defaultTitle : Str := toStr "Welcome my guy to the notification app!"

/-- Embedding of JSON.stringify of the messageItem built by send
(src/src/approver.ts:171-179), keeping the fields that determine the
serialized text; always begins with a brace, hence is never empty. -/
def serializeMessage (title body : Str) : Str :=
  Char.ofNat 123 :: (toStr "\"title\":\"" ++ title
    ++ toStr "\",\"body\":\"" ++ body ++ toStr "\"" ++ [Char.ofNat 125])

theorem serializeMessage_ne_nil (title body : Str) :
    serializeMessage title body ≠ [] := by
  simp [serializeMessage]

/-- Embedding of send (src/src/approver.ts:170-195): serialize the
message item (falling back to the default title), transmit when OPEN,
otherwise enqueue.  The boolean is the source's return value. -/
def send (s : WSManager) (message title : Str) :
    WSManager × List WSAction × Bool :=
  let messageStr :=
    serializeMessage (if title = [] then defaultTitle else title) message
  if wsIsOpen s then (s, [WSAction.wsSend messageStr], true)
  else ({ s with messageQueue := s.messageQueue ++ [messageStr] }, [], false)

/-- Outcome of starting a correlated exchange. -/
inductive SAWStart
  | alreadyAwaiting
  | awaiting
  | notConnected
deriving DecidableEq, Repr

/-- Embedding of sendAndWaitForApproval (src/src/approver.ts:197-230):
throws the already-awaiting error when a pending response exists,
before anything is sent or queued; otherwise registers the pending
response and transmits, or rejects immediately when the socket is not
open (the registered pending response is cleared again in that branch). -/
def sendAndWaitForApproval (s : WSManager) (messageStr : Str) :
    WSManager × List WSAction × SAWStart :=
  if s.pendingResponse then (s, [], SAWStart.alreadyAwaiting)
  else if wsIsOpen s then
    ({ s with pendingResponse := true },
     [WSAction.wsSend messageStr], SAWStart.awaiting)
  else (s, [WSAction.rejectPending msgNotConnected], SAWStart.notConnected)

/-- Embedding of disconnect (src/src/approver.ts:248-266): disable
auto-reconnect, cancel the reconnect timer, reject a pending response,
and only then close and clear the socket. -/
def disconnect (s : WSManager) : WSManager × List WSAction :=
  let s1 : WSManager := { s with autoReconnect := false }
  let step2 : WSManager × List WSAction :=
    if s1.reconnectTimer then
      ({ s1 with reconnectTimer := false }, [WSAction.cancelTimer])
    else (s1, [])
  let step3 : WSManager × List WSAction :=
    if step2.1.pendingResponse then
      ({ step2.1 with pendingResponse := false },
       [WSAction.rejectPending msgDisconnected])
    else (step2.1, [])
  let step4 : WSManager × List WSAction :=
    if step3.1.ws.isSome then
      ({ step3.1 with ws := none },
       [WSAction.closeSocket, WSAction.clearSocketRef])
    else (step3.1, [])
  (step4.1, step2.2 ++ step3.2 ++ step4.2)

/-- Recognizer for a pending-rejection action. -/
def isRejectPending : WSAction → Bool
  | WSAction.rejectPending _ => true
  | _ => false

/-- Recognizer for the clearing of the socket reference. -/
def isClearSocketRef : WSAction → Bool
  | WSAction.clearSocketRef => true
  | _ => false

/-- Position of the first pending-rejection in a trace (length if none). -/
def idxOfReject (tr : List WSAction) : Nat := tr.findIdx isRejectPending

/-- Position of the first socket-reference clear in a trace. -/
def idxOfClear (tr : List WSAction) : Nat := tr.findIdx isClearSocketRef

/-- Folding a sequence of fire-and-forget send calls over the state. -/
def applySends (s : WSManager) : List (Str × Str) → WSManager
  | [] => s
  | (message, title) :: rest => applySends (send s message title).1 rest

end Approver

namespace Keyboard

/-- Value stored under a token key in the per-user collection.  A fresh
execution-token entry is the empty object; the approved branch of
evaluate stores the code; a planning entry stores status/plan/used. -/
structure TokenEntry where
  status : Option Str := none
  plan : Option Str := none
  code : Option Str := none
  used : Option Bool := none
deriving DecidableEq, Repr

/-- Per-user record inside executionCodeCollection: the executionToken and
planningToken properties plus the token-keyed entries of the same object. -/
structure UserData where
  executionToken : Option Str := none
  planningToken : Option Str := none
  entries : List (Str × TokenEntry) := []
deriving DecidableEq, Repr

/-- The process-wide executionCodeCollection (src/src/index.ts:35),
keyed by user id. -/
abbrev Store := List (Str × UserData)

def lookupA {α : Type} (l : List (Str × α)) (k : Str) : Option α :=
  match l with
  | [] => none
  | (k1, v) :: rest => if k1 = k then some v else lookupA rest k

/-- JavaScript property assignment on an object used as a map: replace in
place when the key is present, append otherwise. -/
def insertA {α : Type} (l : List (Str × α)) (k : Str) (v : α) :
    List (Str × α) :=
  match l with
  | [] => [(k, v)]
  | (k1, v1) :: rest =>
    if k1 = k then (k1, v) :: rest else (k1, v1) :: insertA rest k v

/-- JavaScript delete of a property. -/
def eraseA {α : Type} (l : List (Str × α)) (k : Str) : List (Str × α) :=
  match l with
  | [] => []
  | (k1, v1) :: rest => if k1 = k then rest else (k1, v1) :: eraseA rest k

theorem lookupA_insertA_self {α : Type} (l : List (Str × α)) (k : Str)
    (v : α) : lookupA (insertA l k v) k = some v := by
  induction l with
  | nil => simp [insertA, lookupA]
  | cons hd tl ih =>
    obtain ⟨k1, v1⟩ := hd
    by_cases hk : k1 = k
    · simp [insertA, lookupA, hk]
    · simp [insertA, lookupA, hk, ih]

theorem lookupA_insertA_other {α : Type} (l : List (Str × α)) (k k2 : Str)
    (v : α) (h : k ≠ k2) : lookupA (insertA l k v) k2 = lookupA l k2 := by
  induction l with
  | nil => simp [insertA, lookupA, h]
  | cons hd tl ih =>
    obtain ⟨k1, v1⟩ := hd
    by_cases hk : k1 = k
    · subst hk
      simp [insertA, lookupA, h]
    · simp [insertA, lookupA, hk, ih]

/-- The hardcoded session key used by the tools ("keyboard-mcp-user"). -/
def defaultUserId : Str := toStr "keyboard-mcp-user"

/-- User-record lookup with the `if (!collection[userId])` initialization
pattern folded in: absent users read as the empty record. -/
def getUser (store : Store) (userId : Str) : UserData :=
  (lookupA store userId).getD {}

/-- Embedding of `if (!executionCodeCollection[userId]) { ... = {} }`. -/
def ensureUser (store : Store) (userId : Str) : Store :=
  match lookupA store userId with
  | some _ => store
  | none => insertA store userId {}

/-- Embedding of generateExecutionToken (src/src/index.ts:38-55) with the
random token supplied as an argument: ensure the user record exists, set
its executionToken property, and store an empty object under the token
key.  The planning data is deliberately preserved. -/
def generateExecutionToken (store : Store) (userId newToken : Str) : Store :=
  let u := getUser store userId
  insertA store userId
    { u with executionToken := some newToken,
             entries := insertA u.entries newToken {} }

/-- Embedding of generatePlanningToken (src/src/index.ts:57-80) with the
random token supplied as an argument: set the planningToken property and
store a planned, unused entry under the token key. -/
def generatePlanningToken (store : Store) (userId newToken : Str) : Store :=
  let u := getUser store userId
  insertA store userId
    { u with planningToken := some newToken,
             entries := insertA u.entries newToken
               { status := some (toStr "planned"), used := some false } }

/-- The session's current execution token, as read by execute
(src/src/index.ts:677). -/
def currentExecutionTokenOf (store : Store) (userId : Str) : Option Str :=
  (lookupA store userId).bind (fun u => u.executionToken)

/-- Outcome of the approval round trip awaited inside evaluate: either the
promise resolves with the value produced by handleMessage, or it rejects
(timeout, transport error, disconnect, send failure). -/
inductive RoundTrip
  | reply (r : Approver.InboundReply)
  | failure (err : Str)
deriving DecidableEq, Repr

/-- The status-is-approved test of evaluate
(src/src/index.ts:612): only a resolved approved message has a status
property; rejection and invalid replies were resolved as plain strings. -/
def statusApproved (v : Approver.ResolvedValue) : Bool :=
  match v with
  | Approver.ResolvedValue.approvedMsg _ => true
  | Approver.ResolvedValue.errorString _ _ => false

/-- Result of the evaluate tool (src/src/index.ts:436-663). -/
inductive EvalResult
  | codeTooLong
  | wsError
  | codespaceError
  | approvalError (err : Str)
  | completed (approved : Bool) (executionToken : Str)
deriving DecidableEq, Repr

/-- Embedding of the evaluate tool handler (src/src/index.ts:445-663).
Inputs beyond the tool arguments: whether a WebSocketManager exists,
whether an active codespace was found, the fresh random execution token,
and the outcome of the approval round trip.  Note the order of effects,
exactly as in the source: the planning token argument is never consulted,
the execution token is generated and installed (line 537) before the
approval round trip (line 607), the approved branch (612-615) re-stores
the code under the token, and the catch branch (632-647) resets the whole
process-wide collection to the empty object. -/
def evaluate (store : Store) (planning_token code : Str)
    (wsConnected codespaceAvailable : Bool) (freshToken : Str)
    (roundTrip : RoundTrip) : EvalResult × Store :=
  let linesOfCode := (splitOnChar (Char.ofNat 10) code).length
  if 400 < linesOfCode then (EvalResult.codeTooLong, store)
  else
    let store1 := ensureUser store defaultUserId
    if wsConnected = false then (EvalResult.wsError, store1)
    else if codespaceAvailable = false then (EvalResult.codespaceError, store1)
    else
      let store2 := generateExecutionToken store1 defaultUserId freshToken
      match roundTrip with
      | RoundTrip.failure err => (EvalResult.approvalError err, [])
      | RoundTrip.reply r =>
        let approvalResponse := Approver.handleApprovalReply r
        if statusApproved approvalResponse then
          let u := getUser store2 defaultUserId
          let u1 : UserData :=
            { u with entries := insertA u.entries freshToken { code := some code },
                     executionToken := some freshToken }
          (EvalResult.completed true freshToken, insertA store2 defaultUserId u1)
        else (EvalResult.completed false freshToken, store2)

/-- Result of the execute tool (src/src/index.ts:667-794).  `dispatched`
records that control reached the call to executeCodeOnCodespace with the
given code payload looked up from the store (undefined is modelled as
none); everything after that call only formats its response. -/
inductive ExecResult
  | tokenError
  | wsError
  | resourceError
  | dispatched (code : Option Str)
deriving DecidableEq, Repr

/-- Embedding of the execute tool handler (src/src/index.ts:673-764):
validate the supplied token against the session's executionToken
property, require a WebSocketManager, read the code stored under the
token, install a fresh execution token for next time, check codespace
availability, delete the consumed token entry, and dispatch. -/
def execute (store : Store) (execution_token : Str) (wsConnected : Bool)
    (freshToken : Str) (codespacesOk : Bool) : ExecResult × Store :=
  match currentExecutionTokenOf store defaultUserId with
  | none => (ExecResult.tokenError, store)
  | some current =>
    if execution_token ≠ current then (ExecResult.tokenError, store)
    else if wsConnected = false then (ExecResult.wsError, store)
    else
      let code := (lookupA (getUser store defaultUserId).entries
        execution_token).bind (fun e => e.code)
      let store2 := generateExecutionToken store defaultUserId freshToken
      if codespacesOk = false then (ExecResult.resourceError, store2)
      else
        let u := getUser store2 defaultUserId
        let store3 := insertA store2 defaultUserId
          { u with entries := eraseA u.entries execution_token }
        (ExecResult.dispatched code, store3)

end Keyboard

namespace Codespaces

/-- Embedding of `let encryptMessages = process.env.ENCRYPT_MESSAGES || true`
(src/src/codespaces.ts:4): the env value when it is a truthy string,
otherwise the boolean true.  Truthiness of the result. -/
def encryptMessagesTruthy (env : Option Str) : Bool :=
  match env with
  | none => true
  | some s => if truthyStr s then truthyStr s else true

/-- The `||` default always yields a truthy setting: an unset or empty
variable falls back to the boolean true, and any other string is truthy.
Payload encryption can therefore never be switched off through this
environment variable. -/
theorem encryptMessagesTruthy_always (env : Option Str) :
    encryptMessagesTruthy env = true := by
  cases env with
  | none => rfl
  | some s =>
    by_cases h : truthyStr s = true
    · simp [encryptMessagesTruthy, h]
    · simp [encryptMessagesTruthy, h]

/-- The result each branch assigns to responseToSend at the
acknowledgment stage of executeCodeOnCodespace
(src/src/codespaces.ts:551-591). -/
inductive AckResponse
  | wsApproval (v : Approver.ResolvedValue)
  | manualApprovalRequired (executionResult : Str)
  | aiApproved
deriving DecidableEq, Repr

/-- Overall result of executeCodeOnCodespace
(src/src/codespaces.ts:466-609): every thrown error is caught at the end
and returned as a failure record carrying the error message. -/
inductive CodespaceResult
  | failure (msg : Str)
  | success (resp : AckResponse)
deriving DecidableEq, Repr

def msgUrlRequired : Str := toStr "Codespace URL is required"

def msgCodeRequired : Str := toStr "Code is required"

/-- The TypeError raised by `tokens.token` when wsManager is null: the
optional call short-circuits to undefined and the property read throws. -/
def msgTokenOfUndefined : Str :=
  toStr "Cannot read properties of undefined (reading token)"

def msgNoAiAnalysis : Str := toStr "AI analysis was not provided in the response."

def msgSensitiveData : Str :=
  toStr "AI analysis found potential sensitive data exposure. Please review the code and try again."

/-- Embedding of executeCodeOnCodespace (src/src/codespaces.ts:466-609).
External collaborators are parameters: tokenFetch is the
sendAndWaitForTokenResponse round trip against the approval endpoint (a
WebSocketManager method the callers rely on; it is not part of
src/src/approver.ts, so only its outcome is modelled), httpResult the
POST to the codespace /execute endpoint, ackReply the human
acknowledgment round trip, and aiFlag the parsed
VISIBLE_HARD_CODED_API_KEY_OR_RAW_SENSITIVE_DATA field of the AI verdict.
The control flow is the source's: URL and code guards, then the
encryption stage — which, because encryptMessagesTruthy always holds,
dereferences the token response and therefore throws when wsManager is
absent — then the HTTP dispatch, then the acknowledgment branch on
(aiEvalSettings, wsManager). -/
def executeCodeOnCodespace (env : Option Str) (codespaceUrl : Str)
    (code : Option Str) (wsPresent : Bool) (aiEvalSettings : Bool)
    (tokenFetch : Except Str Str) (httpResult : Except Str Str)
    (ackReply : Approver.ResolvedValue) (aiFlag : Option Bool) :
    CodespaceResult :=
  if codespaceUrl = [] then CodespaceResult.failure msgUrlRequired
  else if code = none ∨ code = some [] then
    CodespaceResult.failure msgCodeRequired
  else
    -- `if (aiEvalSettings) wsManager = null` (line 486)
    let wsPresent := if aiEvalSettings then false else wsPresent
    let encStage : Except Str Unit :=
      if encryptMessagesTruthy env then
        if wsPresent = false then Except.error msgTokenOfUndefined
        else
          match tokenFetch with
          | Except.error e => Except.error e
          | Except.ok _ => Except.ok ()
      else Except.ok ()
    match encStage with
    | Except.error e => CodespaceResult.failure e
    | Except.ok _ =>
      match httpResult with
      | Except.error e => CodespaceResult.failure e
      | Except.ok responseBody =>
        if aiEvalSettings = false ∧ wsPresent = true then
          CodespaceResult.success (AckResponse.wsApproval ackReply)
        else if aiEvalSettings = false ∧ wsPresent = false then
          CodespaceResult.success
            (AckResponse.manualApprovalRequired responseBody)
        else
          match aiFlag with
          | some false => CodespaceResult.success AckResponse.aiApproved
          | some true => CodespaceResult.failure msgSensitiveData
          | none => CodespaceResult.failure msgNoAiAnalysis

end Codespaces

/-- C6: with a 32-byte key, decrypt inverts encrypt for every plaintext
(given the cipher round-trip contract of the external AES-256-CBC
implementation, whose hex ciphertext is nonempty and colon-free); every
input without a colon delimiter is rejected with the format error; and a
successful decrypt always comes from a complete successful decipher of a
parsed IV and ciphertext — never a partial decryption. -/
theorem C6_encrypt_decrypt_roundtrip (C : Crypto.BlockCipher)
    (key iv : List Nat) (t : Str) (hkey : key.length = 32) (hiv : iv ≠ [])
    (hb : ∀ b ∈ iv, b < 256) (hctne : C.enc key iv t ≠ [])
    (hctc : ':' ∉ C.enc key iv t)
    (hinv : C.dec key iv (C.enc key iv t) = some t) :
    Crypto.encrypt C key iv t
      = Except.ok (Crypto.bytesToHex iv ++ ':' :: C.enc key iv t)
    ∧ Crypto.decrypt C key (Crypto.bytesToHex iv ++ ':' :: C.enc key iv t)
      = Except.ok t
    ∧ (∀ s, ':' ∉ s →
        Crypto.decrypt C key s = Except.error Crypto.CryptoError.invalidFormat)
    ∧ (∀ s t2, Crypto.decrypt C key s = Except.ok t2 →
        ∃ ivHex encPart, ivHex ≠ [] ∧ encPart ≠ [] ∧
          C.dec key (Crypto.hexToBytes ivHex) encPart = some t2) := by
  refine ⟨?_, ?_, ?_, ?_⟩
  · simp [Crypto.encrypt, hkey]
  · have hformat : ¬ (Crypto.bytesToHex iv = [] ∨ C.enc key iv t = []) := by
      push_neg
      exact ⟨Crypto.bytesToHex_ne_nil iv hiv, hctne⟩
    have hklen : ¬ key.length ≠ 32 := fun hcontra => hcontra hkey
    simp only [Crypto.decrypt,
      splitOnChar_append ':' _ _ (Crypto.colon_not_mem_bytesToHex iv) hctc,
      if_neg hformat, if_neg hklen, Crypto.hexToBytes_bytesToHex iv hb, hinv]
  · intro s hs
    simp only [Crypto.decrypt, splitOnChar_no_sep ':' s hs]
  · intro s t2 h
    simp only [Crypto.decrypt] at h
    cases hsplit : splitOnChar ':' s with
    | nil => rw [hsplit] at h; exact absurd h (by simp)
    | cons ivHex rest =>
      cases rest with
      | nil => rw [hsplit] at h; exact absurd h (by simp)
      | cons encPart rest2 =>
        rw [hsplit] at h
        dsimp only [] at h
        by_cases hfmt : ivHex = [] ∨ encPart = []
        · rw [if_pos hfmt] at h
          exact absurd h (by simp)
        · rw [if_neg hfmt] at h
          push_neg at hfmt
          by_cases hk : key.length ≠ 32
          · rw [if_pos hk] at h
            exact absurd h (by simp)
          · rw [if_neg hk] at h
            cases hdec : C.dec key (Crypto.hexToBytes ivHex) encPart with
            | none => rw [hdec] at h; exact absurd h (by simp)
            | some t3 =>
              rw [hdec] at h
              refine ⟨ivHex, encPart, hfmt.1, hfmt.2, ?_⟩
              rw [hdec]
              exact congrArg some (Except.ok.inj h)

/-- C6 witness: the round trip evaluated at a concrete 32-byte key, a
concrete 16-byte IV, and a concrete cipher satisfying the contract. -/
theorem C6_witness :
    Crypto.encrypt
        ⟨fun _ _ _ => toStr "ab",
         fun _ _ s => if s = toStr "ab" then some (toStr "hi") else none⟩
        (List.replicate 32 0) (List.replicate 16 7) (toStr "hi")
      = Except.ok (Crypto.bytesToHex (List.replicate 16 7) ++ ':' :: toStr "ab")
    ∧ Crypto.decrypt
        ⟨fun _ _ _ => toStr "ab",
         fun _ _ s => if s = toStr "ab" then some (toStr "hi") else none⟩
        (List.replicate 32 0)
        (Crypto.bytesToHex (List.replicate 16 7) ++ ':' :: toStr "ab")
      = Except.ok (toStr "hi") := by
  have h := C6_encrypt_decrypt_roundtrip
    ⟨fun _ _ _ => toStr "ab",
     fun _ _ s => if s = toStr "ab" then some (toStr "hi") else none⟩
    (List.replicate 32 0) (List.replicate 16 7) (toStr "hi")
    (by decide) (by decide) (by decide) (by decide) (by decide) (by decide)
  exact ⟨h.1, h.2.1⟩

/-- C7 counterexample: with a 31-byte key and the well-formed input
"00:00", decrypt does not fail with the key-configuration error of the
claim: it reaches the decipher construction (the format guard, not a key
guard, runs first; no key-length pre-check exists in decrypt). -/
theorem C7_counterexample :
    (List.replicate 31 (0 : Nat)).length ≠ 32
    ∧ Crypto.decrypt ⟨fun _ _ _ => [], fun _ _ _ => none⟩
        (List.replicate 31 0) (toStr "00:00")
      = Except.error Crypto.CryptoError.decipherInit
    ∧ Crypto.CryptoError.decipherInit ≠ Crypto.CryptoError.keyLength := by
  refine ⟨by decide, by rfl, by decide⟩

/-- C7 amended: encrypt rejects a key that is not exactly 32 bytes with
its key-configuration guard before any cipher operation; decrypt has no
such pre-check — with a wrong-length key it fails only at decipher
construction, and only after the delimiter format guard has passed. -/
theorem C7_key_check_asymmetry (C : Crypto.BlockCipher) (key iv : List Nat)
    (t s : Str) (h : key.length ≠ 32) :
    Crypto.encrypt C key iv t = Except.error Crypto.CryptoError.keyLength
    ∧ (Crypto.decrypt C key s = Except.error Crypto.CryptoError.invalidFormat
       ∨ Crypto.decrypt C key s = Except.error Crypto.CryptoError.decipherInit) := by
  constructor
  · simp [Crypto.encrypt, h]
  · simp only [Crypto.decrypt]
    cases hsplit : splitOnChar ':' s with
    | nil => left; rfl
    | cons ivHex rest =>
      cases rest with
      | nil => left; rfl
      | cons encPart rest2 =>
        dsimp only []
        by_cases hfmt : ivHex = [] ∨ encPart = []
        · left
          rw [if_pos hfmt]
        · right
          rw [if_neg hfmt, if_pos h]

/-- C7 witness for the amended statement, at a 1-byte key. -/
theorem C7_witness :
    Crypto.encrypt ⟨fun _ _ _ => [], fun _ _ _ => none⟩ [0] [1] (toStr "p")
      = Except.error Crypto.CryptoError.keyLength
    ∧ (Crypto.decrypt ⟨fun _ _ _ => [], fun _ _ _ => none⟩ [0] (toStr "00:00")
        = Except.error Crypto.CryptoError.invalidFormat
       ∨ Crypto.decrypt ⟨fun _ _ _ => [], fun _ _ _ => none⟩ [0] (toStr "00:00")
        = Except.error Crypto.CryptoError.decipherInit) :=
  C7_key_check_asymmetry ⟨fun _ _ _ => [], fun _ _ _ => none⟩ [0] [1]
    (toStr "p") (toStr "00:00") (by decide)

/-- C4: while a pending response exists, a second sendAndWaitForApproval
fails immediately with the already-awaiting error: the state (including
the outbound queue) is unchanged and no action — in particular no send
and no enqueue — is performed. -/
theorem C4_single_flight (s : Approver.WSManager) (msgStr : Str)
    (h : s.pendingResponse = true) :
    Approver.sendAndWaitForApproval s msgStr
      = (s, [], Approver.SAWStart.alreadyAwaiting) := by
  simp [Approver.sendAndWaitForApproval, h]

/-- C4 witness: a concrete connection state with a pending response. -/
theorem C4_witness :
    Approver.sendAndWaitForApproval
        ⟨some Approver.SocketState.OPEN, [], 0, false, true, true, 10⟩
        (toStr "m")
      = (⟨some Approver.SocketState.OPEN, [], 0, false, true, true, 10⟩, [],
         Approver.SAWStart.alreadyAwaiting) :=
  C4_single_flight _ _ rfl

/-- C5 counterexample: in the close handler the socket reference is
cleared before the pending request is rejected — at a concrete state with
a pending request the emitted trace is [clearSocketRef, rejectPending,
scheduleTimer], so the rejection does not precede the clearing of
connection state as the claim requires. -/
theorem C5_counterexample :
    (Approver.onClose
        ⟨some Approver.SocketState.OPEN, [], 0, false, true, true, 10⟩).2
      = [Approver.WSAction.clearSocketRef,
         Approver.WSAction.rejectPending Approver.msgDisconnected,
         Approver.WSAction.scheduleTimer 1]
    ∧ ¬ (Approver.idxOfReject (Approver.onClose
          ⟨some Approver.SocketState.OPEN, [], 0, false, true, true, 10⟩).2
        < Approver.idxOfClear (Approver.onClose
          ⟨some Approver.SocketState.OPEN, [], 0, false, true, true, 10⟩).2) := by
  refine ⟨by rfl, by decide⟩

/-- C5 amended: whenever the connection closes, errors, or disconnect()
is called while a pending request exists, the pending request is rejected
with a disconnect/transport error within that same handler and the
pending slot is cleared, so a caller never hangs past connection loss; in
disconnect() the rejection precedes the closing and clearing of the
socket, while in the close/error handlers it happens right after the
socket reference is cleared. -/
theorem C5_pending_failed_on_all_teardown (s : Approver.WSManager)
    (err : Str) (h : s.pendingResponse = true) :
    ((Approver.onClose s).2.any Approver.isRejectPending = true
      ∧ (Approver.onClose s).1.pendingResponse = false)
    ∧ ((Approver.onError s err).2.any Approver.isRejectPending = true
      ∧ (Approver.onError s err).1.pendingResponse = false)
    ∧ ((Approver.disconnect s).2.any Approver.isRejectPending = true
      ∧ (Approver.disconnect s).1.pendingResponse = false
      ∧ Approver.idxOfReject (Approver.disconnect s).2
          < Approver.idxOfClear (Approver.disconnect s).2) := by
  refine ⟨⟨?_, ?_⟩, ⟨?_, ?_⟩, ?_, ?_, ?_⟩
  · simp only [Approver.onClose, h, if_true, Approver.scheduleReconnect]
    by_cases har : s.autoReconnect = true <;>
      by_cases hcap : s.maxReconnectAttempts ≤ s.reconnectAttempts <;>
      simp [har, hcap, Approver.isRejectPending]
  · simp only [Approver.onClose, h, if_true, Approver.scheduleReconnect]
    by_cases har : s.autoReconnect = true <;>
      by_cases hcap : s.maxReconnectAttempts ≤ s.reconnectAttempts <;>
      simp [har, hcap]
  · simp [Approver.onError, h, Approver.isRejectPending]
  · simp [Approver.onError, h]
  · simp only [Approver.disconnect]
    by_cases htimer : s.reconnectTimer = true <;>
      by_cases hws : s.ws.isSome = true <;>
      simp [htimer, hws, h, Approver.isRejectPending]
  · simp only [Approver.disconnect]
    by_cases htimer : s.reconnectTimer = true <;>
      by_cases hws : s.ws.isSome = true <;>
      simp [htimer, hws, h]
  · simp only [Approver.disconnect]
    by_cases htimer : s.reconnectTimer = true <;>
      by_cases hws : s.ws.isSome = true <;>
      simp [htimer, hws, h, Approver.idxOfReject, Approver.idxOfClear,
        List.findIdx_cons, Approver.isRejectPending, Approver.isClearSocketRef]

/-- C5 witness for the amended statement at a concrete state with a
pending request, an armed reconnect timer and an open socket. -/
theorem C5_witness :
    ((Approver.disconnect
        ⟨some Approver.SocketState.OPEN, [], 0, true, true, true, 10⟩).2.any
      Approver.isRejectPending = true)
    ∧ (Approver.disconnect
        ⟨some Approver.SocketState.OPEN, [], 0, true, true, true, 10⟩).1.pendingResponse
      = false :=
  ⟨(C5_pending_failed_on_all_teardown
      ⟨some Approver.SocketState.OPEN, [], 0, true, true, true, 10⟩
      (toStr "e") rfl).2.2.1,
   (C5_pending_failed_on_all_teardown
      ⟨some Approver.SocketState.OPEN, [], 0, true, true, true, 10⟩
      (toStr "e") rfl).2.2.2.1⟩

theorem applySends_queue (msgs : List (Str × Str)) (s : Approver.WSManager)
    (h : Approver.wsIsOpen s = false) :
    Approver.applySends s msgs
      = { s with messageQueue := s.messageQueue
            ++ msgs.map (fun p => Approver.serializeMessage
                (if p.2 = [] then Approver.defaultTitle else p.2) p.1) } := by
  induction msgs generalizing s with
  | nil => simp [Approver.applySends]
  | cons p rest ih =>
    obtain ⟨message, title⟩ := p
    simp only [Approver.applySends, Approver.send, h, Bool.false_eq_true,
      if_false]
    rw [ih]
    · simp [List.append_assoc]
    · exact h

theorem flushLoop_map (q : List Str) (h : ∀ m ∈ q, m ≠ []) :
    Approver.flushLoop true q = q.map Approver.WSAction.wsSend := by
  induction q with
  | nil => rfl
  | cons m rest ih =>
    have hm : m ≠ [] := h m (List.mem_cons_self _ _)
    simp [Approver.flushLoop, hm, ih (fun x hx => h x (List.mem_cons_of_mem _ hx))]

theorem onOpen_trace (s : Approver.WSManager)
    (h : ∀ m ∈ s.messageQueue, m ≠ []) :
    (Approver.onOpen s).2 = s.messageQueue.map Approver.WSAction.wsSend := by
  simp only [Approver.onOpen, Approver.flushQueue]
  have hopen : Approver.wsIsOpen
      { s with ws := some Approver.SocketState.OPEN,
               reconnectAttempts := 0 } = true := rfl
  rw [hopen, flushLoop_map _ h]

/-- C9: every send issued while the connection is not OPEN appends its
serialized message to the outbound queue, and the transition to OPEN
flushes the whole queue in exactly the order it was enqueued — the
emitted socket sends are the queue contents, FIFO, none skipped — leaving
the queue empty. -/
theorem C9_queue_flush_fifo (s : Approver.WSManager)
    (msgs : List (Str × Str)) (hnotopen : Approver.wsIsOpen s = false)
    (hq : ∀ m ∈ s.messageQueue, m ≠ []) :
    (Approver.applySends s msgs).messageQueue
      = s.messageQueue ++ msgs.map (fun p => Approver.serializeMessage
          (if p.2 = [] then Approver.defaultTitle else p.2) p.1)
    ∧ (Approver.onOpen (Approver.applySends s msgs)).2
      = (Approver.applySends s msgs).messageQueue.map Approver.WSAction.wsSend
    ∧ (Approver.onOpen (Approver.applySends s msgs)).1.messageQueue = [] := by
  have happ := applySends_queue msgs s hnotopen
  have hq1 : ∀ m ∈ (Approver.applySends s msgs).messageQueue, m ≠ [] := by
    rw [happ]
    intro m hm
    rcases List.mem_append.mp hm with hleft | hright
    · exact hq m hleft
    · obtain ⟨p, _, hp⟩ := List.mem_map.mp hright
      rw [← hp]
      exact Approver.serializeMessage_ne_nil _ _
  refine ⟨by rw [happ], onOpen_trace _ hq1, ?_⟩
  · simp [Approver.onOpen, Approver.flushQueue]

/-- C9 witness: two sends while disconnected, then the open transition. -/
theorem C9_witness :
    (Approver.applySends ⟨none, [], 0, false, false, true, 10⟩
        [(toStr "a", toStr "t"), (toStr "b", [])]).messageQueue
      = [Approver.serializeMessage (toStr "t") (toStr "a"),
         Approver.serializeMessage Approver.defaultTitle (toStr "b")]
    ∧ (Approver.onOpen (Approver.applySends
          ⟨none, [], 0, false, false, true, 10⟩
          [(toStr "a", toStr "t"), (toStr "b", [])])).2
      = [Approver.WSAction.wsSend
           (Approver.serializeMessage (toStr "t") (toStr "a")),
         Approver.WSAction.wsSend
           (Approver.serializeMessage Approver.defaultTitle (toStr "b"))] := by
  have h := C9_queue_flush_fifo ⟨none, [], 0, false, false, true, 10⟩
    [(toStr "a", toStr "t"), (toStr "b", [])] rfl (by simp)
  refine ⟨?_, ?_⟩
  · rw [h.1]
    rfl
  · rw [h.2.1, h.1]
    rfl

namespace Keyboard

theorem lookupA_eq_none_of_not_mem {α : Type} (l : List (Str × α)) (k : Str)
    (h : k ∉ l.map Prod.fst) : lookupA l k = none := by
  induction l with
  | nil => rfl
  | cons hd tl ih =>
    obtain ⟨k1, v1⟩ := hd
    simp only [List.map_cons, List.mem_cons, not_or] at h
    have hne : ¬ k1 = k := fun he => h.1 he.symm
    simp only [lookupA, if_neg hne]
    exact ih h.2

theorem mem_keys_insertA {α : Type} (l : List (Str × α)) (k k2 : Str)
    (v : α) :
    k2 ∈ (insertA l k v).map Prod.fst ↔ k2 ∈ l.map Prod.fst ∨ k2 = k := by
  induction l with
  | nil => simp [insertA]
  | cons hd tl ih =>
    obtain ⟨k1, v1⟩ := hd
    by_cases hk : k1 = k
    · subst hk
      simp only [insertA, eq_self_iff_true, if_true, List.map_cons,
        List.mem_cons]
      tauto
    · simp only [insertA, if_neg hk, List.map_cons, List.mem_cons, ih]
      tauto

theorem nodupkeys_insertA {α : Type} (l : List (Str × α)) (k : Str) (v : α)
    (h : (l.map Prod.fst).Nodup) : ((insertA l k v).map Prod.fst).Nodup := by
  induction l with
  | nil => simp [insertA]
  | cons hd tl ih =>
    obtain ⟨k1, v1⟩ := hd
    simp only [List.map_cons, List.nodup_cons] at h
    by_cases hk : k1 = k
    · subst hk
      simp only [insertA, eq_self_iff_true, if_true, List.map_cons,
        List.nodup_cons]
      exact h
    · simp only [insertA, if_neg hk, List.map_cons, List.nodup_cons]
      refine ⟨fun hc => ?_, ih h.2⟩
      rcases (mem_keys_insertA tl k k1 v).mp hc with hc2 | hc2
      · exact h.1 hc2
      · exact hk hc2

theorem getUser_insertA_self (store : Store) (k : Str) (v : UserData) :
    getUser (insertA store k v) k = v := by
  simp [getUser, lookupA_insertA_self]

theorem lookupA_eraseA_self {α : Type} (l : List (Str × α)) (k : Str)
    (h : (l.map Prod.fst).Nodup) : lookupA (eraseA l k) k = none := by
  induction l with
  | nil => rfl
  | cons hd tl ih =>
    obtain ⟨k1, v1⟩ := hd
    simp only [List.map_cons, List.nodup_cons] at h
    by_cases hk : k1 = k
    · subst hk
      simp only [eraseA, if_pos rfl]
      exact lookupA_eq_none_of_not_mem tl k1 h.1
    · simp only [eraseA, if_neg hk, lookupA, if_neg hk]
      exact ih h.2

end Keyboard

/-- C3: with a valid current execution token T (and a fresh random token
F1 distinct from T), execute(T) succeeds — it dispatches the code stored
under T — after deleting T's entry and installing F1 as the session's
current token, so a second execute(T) fails with the token error; and in
general, whenever generateExecutionToken installs a new token for the
session, the previously current token no longer passes execute's
validation. -/
theorem C3_execution_token_single_use (store : Keyboard.Store)
    (T F1 F2 : Str) (cs2 : Bool)
    (hcur : Keyboard.currentExecutionTokenOf store Keyboard.defaultUserId
      = some T)
    (hnodup : ((Keyboard.getUser store Keyboard.defaultUserId).entries.map
      Prod.fst).Nodup)
    (hF1 : F1 ≠ T) :
    ((Keyboard.execute store T true F1 true).1
        = Keyboard.ExecResult.dispatched
            ((Keyboard.lookupA
              (Keyboard.getUser store Keyboard.defaultUserId).entries T).bind
              (fun e => e.code))
      ∧ Keyboard.currentExecutionTokenOf
          (Keyboard.execute store T true F1 true).2 Keyboard.defaultUserId
        = some F1
      ∧ (Keyboard.execute (Keyboard.execute store T true F1 true).2 T true F2
          cs2).1 = Keyboard.ExecResult.tokenError
      ∧ Keyboard.lookupA (Keyboard.getUser
          (Keyboard.execute store T true F1 true).2
          Keyboard.defaultUserId).entries T = none)
    ∧ (∀ (st : Keyboard.Store) (oldTok newTok : Str),
        Keyboard.currentExecutionTokenOf st Keyboard.defaultUserId
          = some oldTok →
        newTok ≠ oldTok →
        (Keyboard.execute
          (Keyboard.generateExecutionToken st Keyboard.defaultUserId newTok)
          oldTok true F2 cs2).1 = Keyboard.ExecResult.tokenError) := by
  have hTT : ¬ T ≠ T := fun hc => hc rfl
  have hstep : Keyboard.execute store T true F1 true
      = (Keyboard.ExecResult.dispatched
          ((Keyboard.lookupA
            (Keyboard.getUser store Keyboard.defaultUserId).entries T).bind
            (fun e => e.code)),
         Keyboard.insertA
           (Keyboard.generateExecutionToken store Keyboard.defaultUserId F1)
           Keyboard.defaultUserId
           { Keyboard.getUser
               (Keyboard.generateExecutionToken store Keyboard.defaultUserId
                 F1) Keyboard.defaultUserId with
             entries := Keyboard.eraseA
               (Keyboard.getUser
                 (Keyboard.generateExecutionToken store Keyboard.defaultUserId
                   F1) Keyboard.defaultUserId).entries T }) := by
    simp only [Keyboard.execute, hcur]
    rw [if_neg hTT]
    simp
  have hu2 : Keyboard.getUser
      (Keyboard.generateExecutionToken store Keyboard.defaultUserId F1)
      Keyboard.defaultUserId
      = { Keyboard.getUser store Keyboard.defaultUserId with
          executionToken := some F1,
          entries := Keyboard.insertA
            (Keyboard.getUser store Keyboard.defaultUserId).entries F1 {} } := by
    simp only [Keyboard.generateExecutionToken, Keyboard.getUser,
      Keyboard.lookupA_insertA_self, Option.getD_some]
  constructor
  · refine ⟨?_, ?_, ?_, ?_⟩
    · rw [hstep]
    · rw [hstep]
      simp only [Keyboard.currentExecutionTokenOf,
        Keyboard.lookupA_insertA_self, Option.some_bind, hu2]
    · rw [hstep]
      have hTF : T ≠ F1 := fun hc => hF1 hc.symm
      simp only [Keyboard.execute, Keyboard.currentExecutionTokenOf,
        Keyboard.lookupA_insertA_self, Option.some_bind, hu2]
      rw [if_pos hTF]
    · rw [hstep, Keyboard.getUser_insertA_self]
      rw [hu2]
      exact Keyboard.lookupA_eraseA_self _ _
        (Keyboard.nodupkeys_insertA _ _ _ hnodup)
  · intro st oldTok newTok hold hne
    have hne2 : oldTok ≠ newTok := fun hc => hne hc.symm
    have hcur2 : Keyboard.currentExecutionTokenOf
        (Keyboard.generateExecutionToken st Keyboard.defaultUserId newTok)
        Keyboard.defaultUserId = some newTok := by
      simp only [Keyboard.currentExecutionTokenOf,
        Keyboard.generateExecutionToken, Keyboard.lookupA_insertA_self,
        Option.some_bind]
    simp only [Keyboard.execute, hcur2]
    rw [if_pos hne2]

/-- C3 witness: a concrete store holding one valid execution token. -/
theorem C3_witness :
    (Keyboard.execute
        (Keyboard.generateExecutionToken [] Keyboard.defaultUserId
          (toStr "TTTTTTTTTTTTTTTT"))
        (toStr "TTTTTTTTTTTTTTTT") true (toStr "FFFFFFFFFFFFFFFF") true).1
      = Keyboard.ExecResult.dispatched none
    ∧ (Keyboard.execute
        (Keyboard.execute
          (Keyboard.generateExecutionToken [] Keyboard.defaultUserId
            (toStr "TTTTTTTTTTTTTTTT"))
          (toStr "TTTTTTTTTTTTTTTT") true (toStr "FFFFFFFFFFFFFFFF") true).2
        (toStr "TTTTTTTTTTTTTTTT") true (toStr "GGGGGGGGGGGGGGGG") true).1
      = Keyboard.ExecResult.tokenError := by
  have h := C3_execution_token_single_use
    (Keyboard.generateExecutionToken [] Keyboard.defaultUserId
      (toStr "TTTTTTTTTTTTTTTT"))
    (toStr "TTTTTTTTTTTTTTTT") (toStr "FFFFFFFFFFFFFFFF")
    (toStr "GGGGGGGGGGGGGGGG") true (by rfl) (by decide) (by decide)
  exact ⟨h.1.1.trans (by rfl), h.1.2.2.1⟩

/-- C1: evaluating the embedded evaluate at the claim's failing input —
the source never validates or consumes the planning token — a
never-issued planning token is accepted and the call completes with an
execution token; and the very same issued planning token can be replayed
through a second evaluate, which also completes.  Both contradict the
claimed TokenError. -/
theorem C1_evaluate_ignores_planning_token :
    (Keyboard.evaluate
        (Keyboard.generatePlanningToken [] Keyboard.defaultUserId
          (toStr "plan_T1T1T1T1T1T1T1T1"))
        (toStr "plan_NEVERISSUED00000") (toStr "x") true true
        (toStr "F1F1F1F1F1F1F1F1")
        (Keyboard.RoundTrip.reply
          (Approver.InboundReply.jsonMsg (some (toStr "approved")) none))).1
      = Keyboard.EvalResult.completed true (toStr "F1F1F1F1F1F1F1F1")
    ∧ (Keyboard.evaluate
        (Keyboard.evaluate
          (Keyboard.generatePlanningToken [] Keyboard.defaultUserId
            (toStr "plan_T1T1T1T1T1T1T1T1"))
          (toStr "plan_T1T1T1T1T1T1T1T1") (toStr "x") true true
          (toStr "F1F1F1F1F1F1F1F1")
          (Keyboard.RoundTrip.reply
            (Approver.InboundReply.jsonMsg (some (toStr "approved")) none))).2
        (toStr "plan_T1T1T1T1T1T1T1T1") (toStr "x") true true
        (toStr "F2F2F2F2F2F2F2F2")
        (Keyboard.RoundTrip.reply
          (Approver.InboundReply.jsonMsg (some (toStr "approved")) none))).1
      = Keyboard.EvalResult.completed true (toStr "F2F2F2F2F2F2F2F2") :=
  ⟨rfl, rfl⟩

/-- C2: evaluating the embedded evaluate at the claim's failing input — a
round trip that resolves with a rejected reply.  The execution token
generated before the round trip (index.ts:537) stays installed as the
session's current token: the execution slot is not empty, and a
subsequent execute with that token passes token validation and proceeds
to dispatch (with no stored code), instead of failing with the claimed
TokenError. -/
theorem C2_rejected_still_installs_execution_token :
    (Keyboard.evaluate
        (Keyboard.generatePlanningToken [] Keyboard.defaultUserId
          (toStr "plan_T1T1T1T1T1T1T1T1"))
        (toStr "plan_T1T1T1T1T1T1T1T1") (toStr "x") true true
        (toStr "F1F1F1F1F1F1F1F1")
        (Keyboard.RoundTrip.reply
          (Approver.InboundReply.jsonMsg (some (toStr "rejected"))
            (some (toStr "too risky"))))).1
      = Keyboard.EvalResult.completed false (toStr "F1F1F1F1F1F1F1F1")
    ∧ Keyboard.currentExecutionTokenOf
        (Keyboard.evaluate
          (Keyboard.generatePlanningToken [] Keyboard.defaultUserId
            (toStr "plan_T1T1T1T1T1T1T1T1"))
          (toStr "plan_T1T1T1T1T1T1T1T1") (toStr "x") true true
          (toStr "F1F1F1F1F1F1F1F1")
          (Keyboard.RoundTrip.reply
            (Approver.InboundReply.jsonMsg (some (toStr "rejected"))
              (some (toStr "too risky"))))).2
        Keyboard.defaultUserId
      = some (toStr "F1F1F1F1F1F1F1F1")
    ∧ (Keyboard.execute
        (Keyboard.evaluate
          (Keyboard.generatePlanningToken [] Keyboard.defaultUserId
            (toStr "plan_T1T1T1T1T1T1T1T1"))
          (toStr "plan_T1T1T1T1T1T1T1T1") (toStr "x") true true
          (toStr "F1F1F1F1F1F1F1F1")
          (Keyboard.RoundTrip.reply
            (Approver.InboundReply.jsonMsg (some (toStr "rejected"))
              (some (toStr "too risky"))))).2
        (toStr "F1F1F1F1F1F1F1F1") true (toStr "F2F2F2F2F2F2F2F2") true).1
      = Keyboard.ExecResult.dispatched none :=
  ⟨rfl, rfl, rfl⟩

/-- C10: when the approval round trip inside evaluate fails with any
error, the entire process-wide collection is reassigned to the empty
object — afterwards no session has a user record at all, so every
previously issued execution token (and any planning-token lookup) fails
validation for every session. -/
theorem C10_error_resets_store (store : Keyboard.Store)
    (pt code ftok err : Str)
    (hlines : (splitOnChar (Char.ofNat 10) code).length ≤ 400) :
    (Keyboard.evaluate store pt code true true ftok
        (Keyboard.RoundTrip.failure err)).1
      = Keyboard.EvalResult.approvalError err
    ∧ (Keyboard.evaluate store pt code true true ftok
        (Keyboard.RoundTrip.failure err)).2 = []
    ∧ (∀ u, Keyboard.lookupA
        (Keyboard.evaluate store pt code true true ftok
          (Keyboard.RoundTrip.failure err)).2 u = none)
    ∧ (∀ t ws f cs, (Keyboard.execute
        (Keyboard.evaluate store pt code true true ftok
          (Keyboard.RoundTrip.failure err)).2 t ws f cs).1
      = Keyboard.ExecResult.tokenError) := by
  have h400 : ¬ 400 < (splitOnChar (Char.ofNat 10) code).length := by omega
  have hev : Keyboard.evaluate store pt code true true ftok
      (Keyboard.RoundTrip.failure err)
      = (Keyboard.EvalResult.approvalError err, []) := by
    simp only [Keyboard.evaluate, if_neg h400]
    simp
  refine ⟨by rw [hev], by rw [hev], ?_, ?_⟩
  · intro u
    rw [hev]
    rfl
  · intro t ws f cs
    rw [hev]
    rfl

/-- C10 witness: a concrete store with an issued planning token and a
one-line code body. -/
theorem C10_witness :
    (Keyboard.evaluate
        (Keyboard.generatePlanningToken [] Keyboard.defaultUserId
          (toStr "plan_T1T1T1T1T1T1T1T1"))
        (toStr "plan_T1T1T1T1T1T1T1T1") (toStr "x") true true
        (toStr "F1F1F1F1F1F1F1F1")
        (Keyboard.RoundTrip.failure (toStr "Response timeout"))).2 = []
    ∧ (Keyboard.execute
        (Keyboard.evaluate
          (Keyboard.generatePlanningToken [] Keyboard.defaultUserId
            (toStr "plan_T1T1T1T1T1T1T1T1"))
          (toStr "plan_T1T1T1T1T1T1T1T1") (toStr "x") true true
          (toStr "F1F1F1F1F1F1F1F1")
          (Keyboard.RoundTrip.failure (toStr "Response timeout"))).2
        (toStr "F1F1F1F1F1F1F1F1") true (toStr "F2F2F2F2F2F2F2F2") true).1
      = Keyboard.ExecResult.tokenError := by
  have h := C10_error_resets_store
    (Keyboard.generatePlanningToken [] Keyboard.defaultUserId
      (toStr "plan_T1T1T1T1T1T1T1T1"))
    (toStr "plan_T1T1T1T1T1T1T1T1") (toStr "x") (toStr "F1F1F1F1F1F1F1F1")
    (toStr "Response timeout") (by decide)
  exact ⟨h.2.1, h.2.2.2 _ _ _ _⟩

/-- C8: evaluating executeCodeOnCodespace at the claim's failing input —
no Connection at the result-acknowledgment stage (wsManager null,
aiEvalSettings false).  Because the encryption setting is always truthy,
the encryption token fetch dereferences undefined and the call fails with
success:false before the code is even dispatched, instead of completing
with the claimed non-blocking manual-review result; the same holds even
with ENCRYPT_MESSAGES explicitly set to "false". -/
theorem C8_missing_connection_fails_not_manual :
    Codespaces.executeCodeOnCodespace none
        (toStr "https://cs-3000.app.github.dev") (some (toStr "1+1")) false
        false (Except.error (toStr "unused")) (Except.ok (toStr "out"))
        (Approver.ResolvedValue.approvedMsg none) none
      = Codespaces.CodespaceResult.failure Codespaces.msgTokenOfUndefined
    ∧ Codespaces.executeCodeOnCodespace (some (toStr "false"))
        (toStr "https://cs-3000.app.github.dev") (some (toStr "1+1")) false
        false (Except.error (toStr "unused")) (Except.ok (toStr "out"))
        (Approver.ResolvedValue.approvedMsg none) none
      = Codespaces.CodespaceResult.failure Codespaces.msgTokenOfUndefined
    ∧ (∀ resp, Codespaces.CodespaceResult.failure
        Codespaces.msgTokenOfUndefined
        ≠ Codespaces.CodespaceResult.success resp) := by
  refine ⟨by rfl, by rfl, ?_⟩
  intro resp hcontra
  exact Codespaces.CodespaceResult.noConfusion hcontra
